import Mathlib

/-!
Verification development for the curriculum-extraction engine of
`fetch_courses.py` (repository `cs_diagram`).

The Python source is shallowly embedded: pure string manipulation becomes
Lean functions on `String`/`List Char`; the BeautifulSoup document tree is
represented by the data the engine actually consumes (anchor names, heading
titles, located tables, expand links, sibling streams); network fetches are
external collaborators passed in as functions, returning `Except` so that a
raised `requests` exception is an `Except.error` that propagates exactly
where the Python exception would.
-/

namespace CsDiagram

/-- Python whitespace test used by `str.strip()` / `str.split()`: ASCII
whitespace plus the non-breaking space (the only non-ASCII whitespace
character occurring in this document family). -/
def isPyWS (c : Char) : Bool :=
  c == ' ' || c == '\t' || c == '\n' || c == '\r' || c == '\x0b' ||
  c == '\x0c' || c == ' '

/-- `startB p s`: `p` is a leading segment of `s` (char lists). -/
def startB : List Char → List Char → Bool
  | [], _ => true
  | _ :: _, [] => false
  | p :: ps, c :: cs => p == c && startB ps cs

/-- `subB p s`: `p` occurs contiguously inside `s`; models Python `p in s`
(character-level containment; `[] `is contained everywhere, as in Python). -/
def subB : List Char → List Char → Bool
  | p, [] => startB p []
  | p, c :: cs => startB p (c :: cs) || subB p cs

/-- Python `pat in s` on strings. -/
def containsSub (s pat : String) : Bool := subB pat.data s.data

/-- Python `s.startswith(pat)`. -/
def sStartsWith (s pat : String) : Bool := startB pat.data s.data

/-- Python `s.endswith(pat)`. -/
def sEndsWith (s pat : String) : Bool := startB pat.data.reverse s.data.reverse

/-- Python `s.strip()`: drop leading and trailing whitespace. -/
def pyStrip (s : String) : String :=
  String.mk (((s.data.dropWhile isPyWS).reverse.dropWhile isPyWS).reverse)

/-- Python `s.lower()` (ASCII case folding, which is all that the matched
keywords need). -/
def strLower (s : String) : String := String.mk (s.data.map Char.toLower)

/-- Python `s.split()` on a char list: split on whitespace runs, no empty
tokens.  `cur` holds the current in-progress token, reversed. -/
def pyWordsAux (cur : List Char) : List Char → List String
  | [] => if cur.isEmpty then [] else [String.mk cur.reverse]
  | c :: cs =>
    if isPyWS c then
      if cur.isEmpty then pyWordsAux [] cs
      else String.mk cur.reverse :: pyWordsAux [] cs
    else pyWordsAux (c :: cur) cs

/-- Python `s.split()` (no argument: whitespace runs, empties dropped). -/
def pyWords (s : String) : List String := pyWordsAux [] s.data

/-- `code.replace('\xa0', ' ')` — the single-character replace from
`parse_table`, rendered as a character map. -/
def replaceNbsp (s : String) : String :=
  String.mk (s.data.map fun c => if c == ' ' then ' ' else c)

/-!
## Faculty registry (`FACULTY_COURSES`, `get_faculty_for_course`)
-/

/-- The `FACULTY_COURSES` dict: insertion order FENS, FASS, SBS. -/
def FACULTY_COURSES : List (String × List String) :=
  [("FENS",
    ["CS201", "CS204", "DSA210", "EE200", "EE202", "ENS201", "ENS202", "ENS203",
     "ENS204", "ENS205", "ENS206", "ENS207", "ENS208", "ENS209", "ENS210", "ENS211",
     "ENS214", "ENS216", "MAT204", "MATH201", "MATH202", "MATH203", "MATH204",
     "NS201", "NS207", "NS213", "NS214", "NS216", "NS218", "PHYS211"]),
   ("FASS",
    ["ANTH255", "ANTH326", "CULT368", "GEN341", "LIT212", "LIT359", "PHIL202",
     "PHIL321", "VA315", "ECON201", "ECON202", "ECON204", "HART292", "HART311",
     "HIST205", "HIST349", "PSY201", "PSY310", "PSY340", "IR201", "IR301",
     "IR391", "IR394", "POLS250", "POLS301", "SOC201", "SOC301", "HART213",
     "HART293", "VA201", "VA203", "VA312"]),
   ("SBS",
    ["ACC201", "FIN301", "MGMT402", "MKTG301", "OPIM302", "ORG301", "ORG302"])]

/-- `get_faculty_for_course(major, code)`: first faculty whose list contains
the concatenated course code `f"{major}{code}"`, else `None`. -/
def get_faculty_for_course (major code : String) : Option String :=
  let course_code := major ++ code
  (FACULTY_COURSES.find? fun fc => fc.2.contains course_code).map (·.1)

/-- `is_faculty_course(major, code)`. -/
def is_faculty_course (major code : String) : Bool :=
  (get_faculty_for_course major code).isSome

/-!
## Category classifiers
-/

/-- `map_category(title)` — heading-text fallback classifier
(source lines 143–157). -/
def map_category (title : String) : String :=
  let t := strLower title
  if containsSub t "university" && containsSub t "courses" then "university"
  else if containsSub t "required" && containsSub t "courses" then "required"
  else if containsSub t "core" && containsSub t "elective" then "core"
  else if containsSub t "area" && containsSub t "elective" then "area"
  else if containsSub t "free" && containsSub t "elective" then "free"
  else if t == "total" then "university"
  else "unknown"

/-- Heading-text rule table exactly as the specification words it (§4.1
rule 3), to be compared with `map_category`. -/
def headingRuleSpec (title : String) : String :=
  let t := strLower title
  if containsSub t "university" && containsSub t "courses" then "university"
  else if containsSub t "required" && containsSub t "courses" then "required"
  else if containsSub t "core" && containsSub t "elective" then "core"
  else if containsSub t "area" && containsSub t "elective" then "area"
  else if containsSub t "free" && containsSub t "elective" then "free"
  else if t == "total" then "university"
  else "unknown"

/-- Anchor-name classifier of the per-zone pass (source lines 242–258).
Note Python's `name_attr.endswith('_CE2' or '_PHL')` evaluates the
expression `'_CE2' or '_PHL'` to `'_CE2'`, so only `_CE2` is tested there. -/
def classifyAnchor (name_attr category_title : String) : String :=
  if sEndsWith name_attr "_CEL" || containsSub name_attr "_COR" ||
     containsSub name_attr "_CE1" || containsSub name_attr "_C1" then "core"
  else if sEndsWith name_attr "_CE2" || sEndsWith name_attr "_C2" ||
     containsSub name_attr "_MEL" then "extra_attribute"
  else if sEndsWith name_attr "_REQ" then "required"
  else if sEndsWith name_attr "_AEL" || sEndsWith name_attr "_ARE" then "area"
  else if sEndsWith name_attr "_FEL" || sEndsWith name_attr "_FRE" then "free"
  else if name_attr == "UC_FENS" || name_attr == "UC_FASS" then "university"
  else map_category category_title

/-- Link-target area-code classifier of the per-zone expand-link pass
(source lines 361–376).  The final `_PHL`/`_MEL` branch is unreachable:
both markers are already caught by the `extra_attribute` branch. -/
def classifyLinkArea (area_code : String) : String :=
  if containsSub area_code "_CEL" || containsSub area_code "_COR" ||
     containsSub area_code "_CE1" || containsSub area_code "_C1" then "core"
  else if containsSub area_code "_CE2" || containsSub area_code "_PHL" ||
     containsSub area_code "_MEL" || containsSub area_code "_C2" then "extra_attribute"
  else if containsSub area_code "_REQ" then "required"
  else if containsSub area_code "_AEL" || containsSub area_code "_ARE" then "area"
  else if containsSub area_code "_FEL" || containsSub area_code "_FRE" then "free"
  else if containsSub area_code "UC_" then "university"
  else if containsSub area_code "_PHL" || containsSub area_code "_MEL" then "required"
  else "unknown"

/-- Area-code classifier of the whole-document fallback sweep
(source lines 392–406).  This rule set differs from `classifyLinkArea`:
`_CE2`/`_C2` land in the `core` branch, there is no `extra_attribute`
outcome, and `_PHL`/`_MEL` yield `required`. -/
def classifyFallbackArea (area_code : String) : String :=
  if containsSub area_code "_CEL" || containsSub area_code "_COR" ||
     containsSub area_code "_CE1" || containsSub area_code "_CE2" ||
     containsSub area_code "_C1" || containsSub area_code "_C2" then "core"
  else if containsSub area_code "_REQ" then "required"
  else if containsSub area_code "_AEL" || containsSub area_code "_ARE" then "area"
  else if containsSub area_code "_FEL" || containsSub area_code "_FRE" then "free"
  else if containsSub area_code "UC_" then "university"
  else if containsSub area_code "_PHL" || containsSub area_code "_MEL" then "required"
  else "unknown"

/-- Zone-anchor recognition of the per-zone pass: the `continue` guard at
source lines 230–233. -/
def isZoneAnchor (name_attr : String) : Bool :=
  sEndsWith name_attr "_CEL" || sEndsWith name_attr "_REQ" ||
  sEndsWith name_attr "_AEL" || sEndsWith name_attr "_ARE" ||
  sStartsWith name_attr "main"

/-!
## Data model for tables and records
-/

/-- One table cell as `parse_table` consumes it: its tag kind (`th` vs
`td`), its `get_text(strip=True)` text, and whether its raw markup
contains a centered literal asterisk
(`'<center>&nbsp;*&nbsp;</center>'` or `'<center> * </center>'`). -/
structure Cell where
  isTh : Bool
  text : String
  rawCentered : Bool
  deriving DecidableEq, Repr

/-- A `<tr>` row: its cells in document order. -/
abbrev TRow := List Cell

/-- A located course table: its `<tr>` rows. -/
abbrev CTable := List TRow

/-- Supplementary text fields produced by `get_course_details`. -/
structure Details where
  Prerequisites : String
  Corequisites : String
  Last_Offered_Term : String
  deriving DecidableEq, Repr

/-- One emitted course record (the dict built at source lines 194–205).
`details` is `none` until the detail pass of lines 417–422 runs
`row.update(details)` on an eligible record. -/
structure Rec where
  Major : String
  Code : String
  Course_Name : String
  ECTS : String
  Engineering : Nat
  Basic_Science : Nat
  SU_credit : String
  Faculty : String
  EL_Type : String
  Faculty_Course : String
  details : Option Details
  deriving DecidableEq, Repr

/-- The `td` cell texts of a row: `[td.get_text(strip=True) for td in tr.find_all('td')]`. -/
def tdTexts (tr : TRow) : List String :=
  (tr.filter fun c => !c.isTh).map (·.text)

/-- Number of `th` cells of a row: `len(tr.find_all('th'))`. -/
def thCount (tr : TRow) : Nat := (tr.filter (·.isTh)).length

/-- The asterisk-marker detection of source lines 174–177: the raw markup
of the first `td` cell contains a centered literal asterisk.  (The source
guards with `len(tds) > 0`; an empty `td` list gives `False`.) -/
def hasAsterisk (tr : TRow) : Bool :=
  match tr.filter fun c => !c.isTh with
  | [] => false
  | c :: _ => c.rawCentered

/-- The `EL_Type` override chain of source lines 184–193. -/
def elTypeFor (has_asterisk : Bool) (faculty_course category : String) : String :=
  if has_asterisk && faculty_course != "No" && category == "required" then "core"
  else if has_asterisk && faculty_course != "No" && category == "area" then "area"
  else if has_asterisk && faculty_course != "No" && category == "free" then "free"
  else category

/-- One iteration of the row loop of `parse_table` (source lines 165–205):
`none` when the row is skipped (fewer than 5 `td` cells or empty identity
cell), `some` of the emitted record otherwise.

`parts.headD ""` renders `parts[0]`: under the branch guard the identity
cell text — a `get_text(strip=True)` result — is non-empty and stripped,
so `parts` is non-empty and `headD` is its genuine head. -/
def parse_row (tr : TRow) (category : String) : Option Rec :=
  let tds := tdTexts tr
  if tds.length ≥ 5 && tds.getD 1 "" != "" then
    let code := replaceNbsp (tds.getD 1 "")
    let parts := pyWords code
    let major := parts.headD ""
    let number := if parts.length > 1 then String.join parts.tail else ""
    let faculty_course :=
      match get_faculty_for_course major number with
      | some f => f
      | none => "No"
    some { Major := major
           Code := number
           Course_Name := tds.getD 2 ""
           ECTS := tds.getD 3 ""
           Engineering := 0
           Basic_Science := 0
           SU_credit := tds.getD 4 ""
           Faculty := tds.getD 5 ""
           EL_Type := elTypeFor (hasAsterisk tr) faculty_course category
           Faculty_Course := faculty_course
           details := none }
  else none

/-- `parse_table(table, category)` (source lines 159–206): skip the first
row when it contains `th` cells, then parse the remaining rows. -/
def parse_table (trs : CTable) (category : String) : List Rec :=
  match trs with
  | [] => []
  | t0 :: rest =>
    if thCount t0 > 0 then rest.filterMap (parse_row · category)
    else (t0 :: rest).filterMap (parse_row · category)

/-!
## Crawl machinery (`crawl_list`, `crawl_program`)
-/

/-- An expand link: its `href` and the `P_AREA=` query-parameter match, if
any (`re.search(r'P_AREA=([^&]+)', href)`). -/
structure Link where
  href : String
  areaCode : Option String
  deriving DecidableEq, Repr

/-- One zone anchor (`<a name=...>`) together with the document data the
per-zone pass derives from its neighbourhood: the heading title (parent or
next `<b>` text, lines 236–240), the table the three-strategy Table
Locator finds for it (lines 260–324, the tree search abstracted to its
outcome), and the expand links gathered around it (lines 336–353). -/
structure Zone where
  name : String
  title : String
  table : Option CTable
  links : List Link
  deriving DecidableEq, Repr

/-- The whole parsed document, as the engine consumes it: the anchors with
name attributes in order, and every `p_list_courses` link of the document
(the fallback sweep of line 387). -/
structure Doc where
  zones : List Zone
  docLinks : List Link
  deriving DecidableEq, Repr

/-- A transport collaborator: fetch a list-page URL and return its first
`<table>` (`soup.find('table')`), `none` when the page has no table, or
`Except.error` when `requests.get`/`raise_for_status` raises. -/
abbrev FetchTable := String → Except String (Option CTable)

/-- `crawl_list(url, category)` (source lines 209–214).  There is no
`try`/`except` here: a transport failure propagates. -/
def crawl_list (fetch : FetchTable) (url category : String) :
    Except String (List Rec) :=
  match fetch url with
  | .error e => .error e
  | .ok none => .ok []
  | .ok (some table) => .ok (parse_table table category)

/-- The accumulating state of `crawl_program`: the `results` list and the
`seen_courses` set (rendered as the list of keys in insertion order;
only membership is consumed). -/
abbrev Acc := List Rec × List String

/-- The dedup key `course_id = f"{row['Major']}{row['Code']}"`: string
concatenation of the two identity components. -/
def course_id (row : Rec) : String := row.Major ++ row.Code

/-- One dedup step (source lines 329–333 / 379–383 / 410–414): append the
row and its key only when the key is unseen. -/
def dedupAdd (acc : Acc) (row : Rec) : Acc :=
  if acc.2.contains (course_id row) then acc
  else (acc.1 ++ [row], acc.2 ++ [course_id row])

/-- Merge a batch of freshly parsed rows into the accumulator. -/
def addRows (acc : Acc) (rows : List Rec) : Acc :=
  rows.foldl dedupAdd acc

/-- The per-zone expand-link loop (source lines 355–383).  `el_type` is
the loop-carried zone category: a link with a `P_AREA` code overwrites it
via `classifyLinkArea`, a link without one inherits the current value. -/
def zoneLinks (fetch : FetchTable) (el_type : String) :
    List Link → Acc → Except String Acc
  | [], acc => .ok acc
  | l :: rest, acc =>
    let el_type' :=
      match l.areaCode with
      | some a => classifyLinkArea a
      | none => el_type
    match crawl_list fetch l.href el_type' with
    | .error e => .error e
    | .ok rows => zoneLinks fetch el_type' rest (addRows acc rows)

/-- Process one recognised zone anchor: classify it (lines 242–258), parse
its located table if any (lines 327–333), then run the expand-link loop. -/
def processZone (fetch : FetchTable) (z : Zone) (acc : Acc) :
    Except String Acc :=
  let el_type := classifyAnchor z.name z.title
  let acc1 :=
    match z.table with
    | some table => addRows acc (parse_table table el_type)
    | none => acc
  zoneLinks fetch el_type z.links acc1

/-- The per-zone pass over all anchors (source lines 227–383); anchors
failing the `isZoneAnchor` guard are skipped by the `continue`. -/
def runZones (fetch : FetchTable) :
    List Zone → Acc → Except String Acc
  | [], acc => .ok acc
  | z :: rest, acc =>
    if isZoneAnchor z.name then
      match processZone fetch z acc with
      | .error e => .error e
      | .ok acc2 => runZones fetch rest acc2
    else runZones fetch rest acc

/-- The whole-document fallback sweep (source lines 387–414): every
`p_list_courses` link of the document, classified by its own area code via
`classifyFallbackArea`; links without a `P_AREA` match are skipped. -/
def runFallback (fetch : FetchTable) :
    List Link → Acc → Except String Acc
  | [], acc => .ok acc
  | l :: rest, acc =>
    match l.areaCode with
    | none => runFallback fetch rest acc
    | some a =>
      match crawl_list fetch l.href (classifyFallbackArea a) with
      | .error e => .error e
      | .ok rows => runFallback fetch rest (addRows acc rows)

/-- The category in force after the expand-link loop has processed a list
of links, starting from the zone category: each link carrying a `P_AREA`
code overwrites it, links without one leave it unchanged. -/
def catAfter (cat : String) (links : List Link) : String :=
  links.foldl
    (fun c l =>
      match l.areaCode with
      | some a => classifyLinkArea a
      | none => c)
    cat

/-- Invariant of the accumulating state: the seen set is exactly the image
of the result list under `course_id`, and the result list carries pairwise
distinct keys. -/
def AccInv (acc : Acc) : Prop :=
  acc.2 = acc.1.map course_id ∧
  acc.1.Pairwise fun a b => course_id a ≠ course_id b

/-- Detail-fetch eligibility and update for one record (the body of the
loop at source lines 417–422).  `details` is the collaborator computing
`get_course_details(term, major, code)`. -/
def applyDetail (details : String → String → Details) (r : Rec) : Rec :=
  if r.EL_Type == "required" || r.EL_Type == "university" ||
     ((r.EL_Type == "core" || r.EL_Type == "area") &&
      (r.Major == "CS" || r.Major == "DSA")) then
    { r with details := some (details r.Major r.Code) }
  else r

/-- The detail loop over the merged results (source lines 417–422). -/
def detail_pass (details : String → String → Details) (rows : List Rec) :
    List Rec :=
  rows.map (applyDetail details)

/-- `crawl_program` (source lines 217–424) with the program-detail page
already fetched and parsed into `Doc` form: per-zone pass, fallback sweep,
detail pass.  A raised fetch exception anywhere in the two crawl passes
aborts the whole call, exactly as in the Python. -/
def crawl_program (fetch : FetchTable)
    (details : String → String → Details) (doc : Doc) :
    Except String (List Rec) :=
  match runZones fetch doc.zones ([], []) with
  | .error e => .error e
  | .ok acc =>
    match runFallback fetch doc.docLinks acc with
    | .error e => .error e
    | .ok acc2 => .ok (detail_pass details acc2.1)

/-!
## Label-scoped text extractor (`_extract_detail_text`) and
`get_course_details`
-/

/-- One sibling following the found label span, as the extractor's loop
distinguishes them: a `<br>` node, a plain text node (`NavigableString`,
carrying its raw text), or an element node (carrying its
`get_text(' ', strip=True)` result). -/
inductive Sib where
  | br : Sib
  | txt : String → Sib
  | elem : String → Sib
  deriving DecidableEq, Repr

/-- A course-detail page, reduced to what the extractor consumes: the
`<span>` nodes in document order, each with its `.string` text and its
following siblings. -/
abbrev DetailDoc := List (String × List Sib)

/-- The sibling loop of `_extract_detail_text` (source lines 56–67):
collect contributions until the second `<br>`; the first `<br>` only
flips `started`. -/
def collectParts : Bool → List Sib → List String
  | _, [] => []
  | started, .br :: rest =>
    if started then [] else collectParts true rest
  | started, .txt s :: rest => pyStrip s :: collectParts started rest
  | started, .elem s :: rest => s :: collectParts started rest

/-- `_extract_detail_text(soup, label)` (source lines 51–68): find the
first span whose string is truthy and contains `label`
(`lambda s: s and label in s`), run the sibling loop, then
`' '.join(p for p in parts if p).strip()`. -/
def extract_detail_text (doc : DetailDoc) (label : String) : String :=
  match doc.find? fun sp => sp.1 != "" && containsSub sp.1 label with
  | none => ""
  | some sp =>
    pyStrip (String.intercalate " "
      ((collectParts false sp.2).filter fun p => p != ""))

/-- One row of the table enclosing the "Last Offered Terms" header on the
last-offered page: its whole `get_text()` and its `td` cell texts. -/
structure LRow where
  text : String
  tds : List String
  deriving DecidableEq, Repr

/-- The last-offered page, reduced to what lines 83–98 consume: the rows
of the `<table>` enclosing the `Last Offered Terms` header `<b>`, or
`none` when the header (or its parent table) is absent. -/
abbrev LastPage := Option (List LRow)

/-- The last-offered-term extraction of source lines 83–98. -/
def extractLastOffered : LastPage → String
  | none => ""
  | some rows =>
    match rows.findIdx? fun r => containsSub r.text "Last Offered Terms" with
    | none => ""
    | some i =>
      if i + 1 < rows.length then
        match (rows.getD (i + 1) ⟨"", []⟩).tds with
        | [] => ""
        | c :: _ => c
      else ""

/-- `get_course_details(term, major, code)` (source lines 71–119), with
the two page fetches passed in as collaborators (`Except.error` for a
raised transport exception).  Both fetches sit inside `try`/`except`
blocks: a failure is logged and absorbed — the last-offered term stays
`''`, prerequisites and corequisites default to `''`. -/
def get_course_details (lastResp : Except String LastPage)
    (detailResp : Except String DetailDoc) : Details :=
  let last_offered_term :=
    match lastResp with
    | .error _ => ""
    | .ok page => extractLastOffered page
  match detailResp with
  | .error _ =>
    { Prerequisites := "", Corequisites := "",
      Last_Offered_Term := last_offered_term }
  | .ok soup =>
    { Prerequisites := extract_detail_text soup "Prerequisites"
      Corequisites := extract_detail_text soup "Corequisites"
      Last_Offered_Term := last_offered_term }

/-!
## Concrete example documents

Small fixtures used to evaluate the embedding at concrete inputs.
-/

/-- A fetch collaborator whose every page has no `<table>`. -/
def fetchNone : FetchTable := fun _ => .ok none

/-- A detail collaborator returning empty supplementary fields. -/
def noDetails : String → String → Details := fun _ _ => ⟨"", "", ""⟩

/-- A data row for course `EE 205` (five `td` cells, no asterisk). -/
def rowEE : TRow :=
  [⟨false, "", false⟩, ⟨false, "EE 205", false⟩, ⟨false, "Nm", false⟩,
   ⟨false, "6", false⟩, ⟨false, "4", false⟩]

/-- A one-row course table for `EE 205`. -/
def tblEE : CTable := [rowEE]

/-- A fetch collaborator whose every page holds `tblEE`. -/
def fetchEE : FetchTable := fun _ => .ok (some tblEE)

/-- A document with no zone anchors and a single fallback link whose
`P_AREA` code is `CS_CE2`. -/
def docCE2 : Doc := ⟨[], [⟨"u", some "CS_CE2"⟩]⟩

/-- A fetch collaborator that raises on `url1` and otherwise serves a
page without tables. -/
def fetchFail : FetchTable :=
  fun u => if u == "url1" then .error "ConnectionError" else .ok none

/-- A document with one `_REQ` zone holding one expand link to `url1`
(no `P_AREA` parameter). -/
def docFail : Doc :=
  ⟨[⟨"X_REQ", "Required Courses", none, [⟨"url1", none⟩]⟩], []⟩

/-- A zone table whose two data rows carry the identity cells `CS2 010`
and `CS 2010`: distinct `(major, code)` pairs, identical concatenated
dedup key `CS2010`. -/
def tblCollide1 : CTable :=
  [[⟨false, "", false⟩, ⟨false, "CS2 010", false⟩, ⟨false, "Name1", false⟩,
    ⟨false, "6", false⟩, ⟨false, "4", false⟩],
   [⟨false, "", false⟩, ⟨false, "CS 2010", false⟩, ⟨false, "Name2", false⟩,
    ⟨false, "6", false⟩, ⟨false, "4", false⟩]]

/-- A second table producing the identity `(CS, 2010)` again. -/
def tblCollide2 : CTable :=
  [[⟨false, "", false⟩, ⟨false, "CS 2010", false⟩, ⟨false, "Name2", false⟩,
    ⟨false, "6", false⟩, ⟨false, "4", false⟩]]

/-- A fetch collaborator whose every page holds `tblCollide2`. -/
def fetchCollide : FetchTable := fun _ => .ok (some tblCollide2)

/-- A document whose `_REQ` zone table is `tblCollide1` and whose one
fallback link (area code `Y_REQ`) leads to `tblCollide2`. -/
def docCollide : Doc :=
  ⟨[⟨"X_REQ", "", some tblCollide1, []⟩], [⟨"u2", some "Y_REQ"⟩]⟩

/-- A data row for `CS 201` whose first `td` cell carries the centered
asterisk marker. -/
def rowAst : TRow :=
  [⟨false, "", true⟩, ⟨false, "CS 201", false⟩, ⟨false, "Intro", false⟩,
   ⟨false, "6", false⟩, ⟨false, "4", false⟩]

/-- A data row whose identity cell is `CS 20 10` (three tokens). -/
def rowSplit : TRow :=
  [⟨false, "", false⟩, ⟨false, "CS 20 10", false⟩, ⟨false, "Nm", false⟩,
   ⟨false, "6", false⟩, ⟨false, "4", false⟩]

/-- A course-detail page: one span containing the `Prerequisites` label,
followed by `value1 <br> value2 <br> trailing`. -/
def docPrereq : DetailDoc :=
  [("Prerequisites: ",
    [.txt "value1", .br, .txt "value2", .br, .txt "trailing"])]

/-!
# Theorems
-/

/-- **C7.** For every heading title string, the heading-text fallback
classifier returns: `university` if the lower-cased title contains both
"university" and "courses"; else `required` if it contains "required" and
"courses"; else `core` if it contains "core" and "elective"; else `area`
if it contains "area" and "elective"; else `free` if it contains "free"
and "elective"; else `university` if the lower-cased title is exactly
"total"; else `unknown` — i.e. `map_category` coincides with the rule
table as the specification words it. -/
theorem claim7_heading_classifier (title : String) :
    map_category title = headingRuleSpec title := rfl

/-- **C6.** An anchor is treated as a zone marker in the per-zone pass
(classified, table-located, parsed) if and only if its name attribute ends
with `_CEL`, `_REQ`, `_AEL`, or `_ARE`, or starts with `main`: the guard
`isZoneAnchor` is exactly that disjunction, a failing anchor is skipped
by `runZones`, and a passing anchor is processed. -/
theorem claim6_zone_anchor_guard (fetch : FetchTable) (z : Zone)
    (rest : List Zone) (acc : Acc) :
    (isZoneAnchor z.name = true ↔
      (sEndsWith z.name "_CEL" = true ∨ sEndsWith z.name "_REQ" = true ∨
       sEndsWith z.name "_AEL" = true ∨ sEndsWith z.name "_ARE" = true ∨
       sStartsWith z.name "main" = true)) ∧
    (isZoneAnchor z.name = false →
      runZones fetch (z :: rest) acc = runZones fetch rest acc) ∧
    (isZoneAnchor z.name = true →
      runZones fetch (z :: rest) acc =
        match processZone fetch z acc with
        | .error e => .error e
        | .ok acc2 => runZones fetch rest acc2) := by
  refine ⟨?_, ?_, ?_⟩
  · simp [isZoneAnchor, Bool.or_eq_true, or_assoc]
  · intro h
    simp [runZones, h]
  · intro h
    simp [runZones, h]

/-- Witness for C6 at the anchor name `FOO_REQ`. -/
theorem claim6_zone_anchor_guard_witness :
    isZoneAnchor "FOO_REQ" = true ∧
    runZones fetchNone [⟨"FOO_REQ", "t", none, []⟩] ([], []) =
      (match processZone fetchNone ⟨"FOO_REQ", "t", none, []⟩ ([], []) with
       | .error e => .error e
       | .ok acc2 => runZones fetchNone [] acc2) :=
  ⟨by decide,
   (claim6_zone_anchor_guard fetchNone ⟨"FOO_REQ", "t", none, []⟩ [] ([], [])).2.2
     (by decide)⟩

/-- **C8.** A record is detail-fetched iff its `EL_Type` is `required` or
`university`, or its `EL_Type` is `core`/`area` and its `Major` is in the
allow-list (CS, DSA); ineligible records pass through `detail_pass`
unchanged, without detail fields. -/
theorem claim8_detail_eligibility (d : String → String → Details) (r : Rec)
    (h : r.details = none) :
    ((applyDetail d r).details.isSome = true ↔
      (r.EL_Type = "required" ∨ r.EL_Type = "university" ∨
        ((r.EL_Type = "core" ∨ r.EL_Type = "area") ∧
         (r.Major = "CS" ∨ r.Major = "DSA")))) ∧
    (¬(r.EL_Type = "required" ∨ r.EL_Type = "university" ∨
        ((r.EL_Type = "core" ∨ r.EL_Type = "area") ∧
         (r.Major = "CS" ∨ r.Major = "DSA"))) →
      applyDetail d r = r) ∧
    (∀ rows : List Rec, r ∈ rows → applyDetail d r ∈ detail_pass d rows) := by
  have hbool : (r.EL_Type == "required" || r.EL_Type == "university" ||
      ((r.EL_Type == "core" || r.EL_Type == "area") &&
       (r.Major == "CS" || r.Major == "DSA"))) = true ↔
      (r.EL_Type = "required" ∨ r.EL_Type = "university" ∨
        ((r.EL_Type = "core" ∨ r.EL_Type = "area") ∧
         (r.Major = "CS" ∨ r.Major = "DSA"))) := by
    simp [Bool.or_eq_true, Bool.and_eq_true, beq_iff_eq, or_assoc]
  refine ⟨?_, ?_, ?_⟩
  · by_cases hC : (r.EL_Type = "required" ∨ r.EL_Type = "university" ∨
        ((r.EL_Type = "core" ∨ r.EL_Type = "area") ∧
         (r.Major = "CS" ∨ r.Major = "DSA")))
    · simp [applyDetail, hbool.mpr hC, hC]
    · have hb : ¬((r.EL_Type == "required" || r.EL_Type == "university" ||
          ((r.EL_Type == "core" || r.EL_Type == "area") &&
           (r.Major == "CS" || r.Major == "DSA"))) = true) :=
        fun hbt => hC (hbool.mp hbt)
      simp [applyDetail, hb, h, hC]
  · intro hC
    have hb : ¬((r.EL_Type == "required" || r.EL_Type == "university" ||
        ((r.EL_Type == "core" || r.EL_Type == "area") &&
         (r.Major == "CS" || r.Major == "DSA"))) = true) :=
      fun hbt => hC (hbool.mp hbt)
    simp [applyDetail, hb]
  · intro rows hr
    simpa [detail_pass] using List.mem_map_of_mem (applyDetail d) hr

/-- Witness for C8: a `required` record is detail-fetched. -/
theorem claim8_detail_eligibility_witness :
    (⟨"EE", "205", "Nm", "6", 0, 0, "4", "", "required", "No", none⟩ :
      Rec).details = none ∧
    (applyDetail noDetails
      ⟨"EE", "205", "Nm", "6", 0, 0, "4", "", "required", "No",
       none⟩).details.isSome = true :=
  ⟨rfl,
   (claim8_detail_eligibility noDetails
      ⟨"EE", "205", "Nm", "6", 0, 0, "4", "", "required", "No", none⟩
      rfl).1.mpr (Or.inl rfl)⟩

/-- A faculty name returned by the registry lookup is one of the three
unit names (in particular, never the sentinel `"No"`). -/
theorem get_faculty_mem (m c f : String)
    (h : get_faculty_for_course m c = some f) :
    f = "FENS" ∨ f = "FASS" ∨ f = "SBS" := by
  unfold get_faculty_for_course at h
  dsimp only at h
  rcases hf : List.find? (fun fc => fc.2.contains (m ++ c)) FACULTY_COURSES
    with _ | fc
  · rw [hf] at h
    simp at h
  · rw [hf] at h
    simp only [Option.map_some', Option.some.injEq] at h
    have hmem := List.mem_of_find?_eq_some hf
    subst h
    simp only [FACULTY_COURSES, List.mem_cons, List.not_mem_nil, or_false]
      at hmem
    rcases hmem with h1 | h1 | h1 <;> rw [h1] <;> simp

/-- **C5.** For a parsed row with the asterisk marker present and an
identity found in the faculty registry: zone category `required` is
reclassified to `core`; zone categories `area` and `free` are stored
unchanged. -/
theorem claim5_asterisk_override (tr : TRow) (category : String) (r : Rec)
    (hp : parse_row tr category = some r)
    (ha : hasAsterisk tr = true)
    (hf : is_faculty_course r.Major r.Code = true) :
    (category = "required" → r.EL_Type = "core") ∧
    (category = "area" → r.EL_Type = category) ∧
    (category = "free" → r.EL_Type = category) := by
  unfold parse_row at hp
  dsimp only at hp
  split at hp
  · simp only [Option.some.injEq] at hp
    subst hp
    simp only at hf ⊢
    unfold is_faculty_course at hf
    rcases hq : get_faculty_for_course
        ((pyWords (replaceNbsp ((tdTexts tr).getD 1 ""))).headD "")
        (if (pyWords (replaceNbsp ((tdTexts tr).getD 1 ""))).length > 1 then
          String.join (pyWords (replaceNbsp ((tdTexts tr).getD 1 ""))).tail
        else "") with _ | f
    · rw [hq] at hf
      simp at hf
    · have hno : f ≠ "No" := by
        rcases get_faculty_mem _ _ _ hq with h1 | h1 | h1 <;> subst h1 <;>
          decide
      refine ⟨?_, ?_, ?_⟩ <;> intro hc <;> subst hc <;>
        simp [elTypeFor, ha, bne_iff_ne, hno]
  · exact absurd hp (by simp)

/-- Witness for C5: the asterisk-marked faculty course `CS 201` in a
`required` zone is stored as `core`. -/
theorem claim5_asterisk_override_witness :
    parse_row rowAst "required" =
      some ⟨"CS", "201", "Intro", "6", 0, 0, "4", "", "core", "FENS",
        none⟩ ∧
    hasAsterisk rowAst = true ∧
    is_faculty_course "CS" "201" = true ∧
    (⟨"CS", "201", "Intro", "6", 0, 0, "4", "", "core", "FENS", none⟩ :
      Rec).EL_Type = "core" :=
  ⟨by decide, by decide, by decide,
   (claim5_asterisk_override rowAst "required"
      ⟨"CS", "201", "Intro", "6", 0, 0, "4", "", "core", "FENS", none⟩
      (by decide) (by decide) (by decide)).1 rfl⟩

/-- **C9.** The row parser skips the first row exactly when it contains
header-typed cells; a remaining row yields a record iff it has at least 5
`td` cells and a non-empty identity cell (rows failing this are silently
dropped, the parser is total); and splitting the identity cell on
whitespace gives `Major` = first token, `Code` = remaining tokens joined
with no separator. -/
theorem claim9_row_parsing (t0 : TRow) (rest : List TRow) (tr : TRow)
    (category : String) (r : Rec) (m : String) (ms : List String) :
    (parse_table (t0 :: rest) category =
      (if thCount t0 > 0 then [] else (parse_row t0 category).toList) ++
        rest.filterMap (parse_row · category)) ∧
    ((parse_row tr category).isSome = true ↔
      ((tdTexts tr).length ≥ 5 ∧ (tdTexts tr).getD 1 "" ≠ "")) ∧
    (parse_row tr category = some r →
      pyWords (replaceNbsp ((tdTexts tr).getD 1 "")) = m :: ms →
      r.Major = m ∧ r.Code = String.join ms) := by
  refine ⟨?_, ?_, ?_⟩
  · by_cases h0 : thCount t0 > 0
    · simp [parse_table, h0]
    · rcases hf : parse_row t0 category with _ | v <;>
        simp [parse_table, h0, List.filterMap_cons, hf]
  · unfold parse_row
    dsimp only
    split
    · next hg =>
      simp only [Option.isSome_some, true_iff]
      simpa [ge_iff_le, bne_iff_ne] using hg
    · next hg =>
      simp only [Option.isSome_none, Bool.false_eq_true, false_iff]
      intro hcond
      apply hg
      rw [Bool.and_eq_true]
      exact ⟨decide_eq_true hcond.1, by simpa [bne_iff_ne] using hcond.2⟩
  · intro hp hsplit
    unfold parse_row at hp
    dsimp only at hp
    split at hp
    · simp only [Option.some.injEq] at hp
      subst hp
      rw [hsplit]
      refine ⟨rfl, ?_⟩
      cases ms with
      | nil => simp [String.join]
      | cons a as => simp
    · exact absurd hp (by simp)

/-- Witness for C9 at a concrete row whose identity cell is `CS 20 10`. -/
theorem claim9_row_parsing_witness :
    parse_row rowSplit "area" =
      some ⟨"CS", "2010", "Nm", "6", 0, 0, "4", "", "area", "No", none⟩ ∧
    pyWords (replaceNbsp ((tdTexts rowSplit).getD 1 "")) =
      ["CS", "20", "10"] ∧
    (⟨"CS", "2010", "Nm", "6", 0, 0, "4", "", "area", "No", none⟩ :
        Rec).Major = "CS" ∧
    (⟨"CS", "2010", "Nm", "6", 0, 0, "4", "", "area", "No", none⟩ :
        Rec).Code = String.join ["20", "10"] :=
  ⟨by decide, by decide,
   (claim9_row_parsing rowSplit [] rowSplit "area"
      ⟨"CS", "2010", "Nm", "6", 0, 0, "4", "", "area", "No", none⟩
      "CS" ["20", "10"]).2.2 (by decide) (by decide)⟩

/-- **C10.** In the per-zone expand-link pass, a link without a `P_AREA`
query parameter is fetched with the current carried category — the zone
category as overwritten by earlier links in the same zone
(`catAfter cat d`) — not a freshly re-derived or `unknown` one. -/
theorem claim10_link_inherits_category (fetch : FetchTable) (cat : String)
    (d : List Link) (l : Link) (rest : List Link) (acc : Acc)
    (h : l.areaCode = none) :
    zoneLinks fetch cat (d ++ l :: rest) acc =
      match zoneLinks fetch cat d acc with
      | .error e => .error e
      | .ok acc2 =>
        match crawl_list fetch l.href (catAfter cat d) with
        | .error e => .error e
        | .ok rows => zoneLinks fetch (catAfter cat d) rest (addRows acc2 rows) := by
  induction d generalizing cat acc with
  | nil =>
    simp only [List.nil_append, zoneLinks, h, catAfter, List.foldl_nil]
  | cons p ps ih =>
    simp only [List.cons_append, zoneLinks]
    rcases hc : crawl_list fetch p.href
        (match p.areaCode with
         | some a => classifyLinkArea a
         | none => cat) with e | rows
    · rfl
    · dsimp only
      simp only [List.append_eq]
      rw [ih]
      have : catAfter cat (p :: ps) =
          catAfter
            (match p.areaCode with
             | some a => classifyLinkArea a
             | none => cat) ps := by
        simp [catAfter, List.foldl_cons]
      rw [this]

/-- Witness for C10: a second link with no area code inherits the
category set by a first link carrying `CS_AEL`. -/
theorem claim10_link_inherits_category_witness :
    (⟨"u2", none⟩ : Link).areaCode = none ∧
    zoneLinks fetchEE "required" ([⟨"u1", some "CS_AEL"⟩] ++ ⟨"u2", none⟩ :: [])
        ([], []) =
      match zoneLinks fetchEE "required" [⟨"u1", some "CS_AEL"⟩] ([], []) with
      | .error e => .error e
      | .ok acc2 =>
        match crawl_list fetchEE "u2"
            (catAfter "required" [⟨"u1", some "CS_AEL"⟩]) with
        | .error e => .error e
        | .ok rows =>
          zoneLinks fetchEE (catAfter "required" [⟨"u1", some "CS_AEL"⟩]) []
            (addRows acc2 rows) :=
  ⟨rfl,
   claim10_link_inherits_category fetchEE "required" [⟨"u1", some "CS_AEL"⟩]
     ⟨"u2", none⟩ [] ([], []) rfl⟩

/-- **C1, counterexample.** The fallback sweep does not use the §4.1
rule-1 link-target rule set: for the area code `CS_CE2`, rule 1 yields
`extra_attribute`, but the sweep classifies the fetched rows as `core`. -/
theorem claim1_counterexample :
    classifyLinkArea "CS_CE2" = "extra_attribute" ∧
    (crawl_program fetchEE noDetails docCE2).map (List.map Rec.EL_Type) =
      .ok ["core"] ∧
    ("core" : String) ≠ "extra_attribute" :=
  ⟨rfl, rfl, by decide⟩

/-- **C1, amended.** In the fallback sweep every link with a `P_AREA`
code is classified by its own area code, but with the sweep's own rule
set `classifyFallbackArea`: `_CE2` and `_C2` fall into the `core` branch,
`_REQ` (absent the core markers) yields `required`, and `_PHL`/`_MEL`
yield `required` when no earlier marker matches — there is no
`extra_attribute` outcome. -/
theorem claim1_amended :
    (∀ (fetch : FetchTable) (d : List Link) (l : Link) (rest : List Link)
        (acc : Acc) (a : String), l.areaCode = some a →
      runFallback fetch (d ++ l :: rest) acc =
        match runFallback fetch d acc with
        | .error e => .error e
        | .ok acc2 =>
          match crawl_list fetch l.href (classifyFallbackArea a) with
          | .error e => .error e
          | .ok rows => runFallback fetch rest (addRows acc2 rows)) ∧
    (∀ a, containsSub a "_CE2" = true → classifyFallbackArea a = "core") ∧
    (∀ a, containsSub a "_C2" = true → classifyFallbackArea a = "core") ∧
    (∀ a, containsSub a "_CEL" = false → containsSub a "_COR" = false →
      containsSub a "_CE1" = false → containsSub a "_CE2" = false →
      containsSub a "_C1" = false → containsSub a "_C2" = false →
      containsSub a "_REQ" = true → classifyFallbackArea a = "required") ∧
    (∀ a, containsSub a "_CEL" = false → containsSub a "_COR" = false →
      containsSub a "_CE1" = false → containsSub a "_CE2" = false →
      containsSub a "_C1" = false → containsSub a "_C2" = false →
      containsSub a "_REQ" = false → containsSub a "_AEL" = false →
      containsSub a "_ARE" = false → containsSub a "_FEL" = false →
      containsSub a "_FRE" = false → containsSub a "UC_" = false →
      (containsSub a "_PHL" = true ∨ containsSub a "_MEL" = true) →
      classifyFallbackArea a = "required") := by
  refine ⟨?_, ?_, ?_, ?_, ?_⟩
  · intro fetch d l rest acc a h
    induction d generalizing acc with
    | nil =>
      simp only [List.nil_append, runFallback, h]
    | cons p ps ih =>
      simp only [List.cons_append, runFallback]
      rcases hp : p.areaCode with _ | b
      · dsimp only
        simp only [List.append_eq]
        exact ih acc
      · dsimp only
        rcases hc : crawl_list fetch p.href (classifyFallbackArea b)
          with e | rows
        · rfl
        · dsimp only
          simp only [List.append_eq]
          rw [ih]
  · intro a h
    simp [classifyFallbackArea, h]
  · intro a h
    simp [classifyFallbackArea, h]
  · intro a h1 h2 h3 h4 h5 h6 h7
    simp [classifyFallbackArea, h1, h2, h3, h4, h5, h6, h7]
  · intro a h1 h2 h3 h4 h5 h6 h7 h8 h9 h10 h11 h12 h13
    rcases h13 with h13 | h13 <;>
      simp [classifyFallbackArea, h1, h2, h3, h4, h5, h6, h7, h8, h9, h10,
        h11, h12, h13]

/-- Witness for C1 (amended), at the area code `CS_CE2` and a one-link
sweep. -/
theorem claim1_amended_witness :
    containsSub "CS_CE2" "_CE2" = true ∧
    classifyFallbackArea "CS_CE2" = "core" ∧
    (⟨"u", some "CS_CE2"⟩ : Link).areaCode = some "CS_CE2" ∧
    runFallback fetchEE ([] ++ (⟨"u", some "CS_CE2"⟩ : Link) :: []) ([], []) =
      (match runFallback fetchEE [] ([], []) with
       | .error e => .error e
       | .ok acc2 =>
         match crawl_list fetchEE "u" (classifyFallbackArea "CS_CE2") with
         | .error e => .error e
         | .ok rows => runFallback fetchEE [] (addRows acc2 rows)) :=
  ⟨by decide, claim1_amended.2.1 "CS_CE2" (by decide), rfl,
   claim1_amended.1 fetchEE [] ⟨"u", some "CS_CE2"⟩ [] ([], []) "CS_CE2" rfl⟩

/-- **C2, counterexample.** For a label followed by
`value1 <br> value2 <br> trailing`, the extractor returns
`"value1 value2"`, not `"value1"`: text preceding the first break is also
collected. -/
theorem claim2_counterexample :
    extract_detail_text docPrereq "Prerequisites" = "value1 value2" ∧
    extract_detail_text docPrereq "Prerequisites" ≠ "value1" :=
  ⟨rfl, by decide⟩

/-- **C2, amended.** For a document in which the label node is followed by
text `value1`, a break, text `value2`, a second break, and arbitrary
trailing content, `extract` returns the joined stripped texts of both
`value1` and `value2`; collection terminates at the second break
regardless of the trailing content. -/
theorem claim2_amended (spanText label v1 v2 : String) (trailing : List Sib)
    (h1 : spanText ≠ "") (h2 : containsSub spanText label = true) :
    extract_detail_text
        [(spanText, [.txt v1, .br, .txt v2, .br] ++ trailing)] label =
      pyStrip (String.intercalate " "
        (([pyStrip v1, pyStrip v2]).filter fun p => p != "")) := by
  unfold extract_detail_text
  have hfind : List.find? (fun sp => sp.1 != "" && containsSub sp.1 label)
      [(spanText, [Sib.txt v1, Sib.br, Sib.txt v2, Sib.br] ++ trailing)] =
      some (spanText, [Sib.txt v1, Sib.br, Sib.txt v2, Sib.br] ++ trailing) := by
    have hb : (spanText != "") = true := bne_iff_ne.mpr h1
    simp [List.find?, hb, h2]
  rw [hfind]
  simp [collectParts]

/-- Witness for C2 (amended) at the `Prerequisites` page fixture. -/
theorem claim2_amended_witness :
    ("Prerequisites: " : String) ≠ "" ∧
    containsSub "Prerequisites: " "Prerequisites" = true ∧
    extract_detail_text docPrereq "Prerequisites" =
      pyStrip (String.intercalate " "
        (([pyStrip "value1", pyStrip "value2"]).filter fun p => p != "")) ∧
    pyStrip (String.intercalate " "
        (([pyStrip "value1", pyStrip "value2"]).filter fun p => p != "")) =
      "value1 value2" :=
  ⟨by decide, by decide,
   claim2_amended "Prerequisites: " "Prerequisites" "value1" "value2"
     [.txt "trailing"] (by decide) (by decide),
   by decide⟩

/-- **C3, counterexample.** A transport failure while following an expand
link is NOT absorbed: with one `_REQ` zone holding one expand link whose
fetch raises, `crawl_program` aborts with that error instead of returning
a (possibly empty) record list. -/
theorem claim3_counterexample :
    crawl_program fetchFail noDetails docFail = .error "ConnectionError" ∧
    (crawl_program fetchFail noDetails docFail).toOption = none :=
  ⟨rfl, rfl⟩

/-- **C3, amended.** `crawl_list` propagates a fetch error; both the
expand-link loop and the fallback sweep abort on the first failing link,
and `crawl_program` aborts with the error of a failing pass.  Only the
supplementary detail fetches inside `get_course_details` are absorbed:
a failed detail fetch leaves the detail fields as empty strings. -/
theorem claim3_amended :
    (∀ (fetch : FetchTable) (url cat e : String), fetch url = .error e →
      crawl_list fetch url cat = .error e) ∧
    (∀ (fetch : FetchTable) (cat : String) (l : Link) (rest : List Link)
        (acc : Acc) (e : String), fetch l.href = .error e →
      zoneLinks fetch cat (l :: rest) acc = .error e) ∧
    (∀ (fetch : FetchTable) (l : Link) (rest : List Link) (acc : Acc)
        (e a : String), l.areaCode = some a → fetch l.href = .error e →
      runFallback fetch (l :: rest) acc = .error e) ∧
    (∀ (fetch : FetchTable) (details : String → String → Details)
        (doc : Doc) (e : String),
      runZones fetch doc.zones ([], []) = .error e →
      crawl_program fetch details doc = .error e) ∧
    (∀ e1 e2 : String,
      get_course_details (.error e1) (.error e2) = ⟨"", "", ""⟩) ∧
    (∀ (lastResp : Except String LastPage) (e2 : String),
      (get_course_details lastResp (.error e2)).Prerequisites = "" ∧
      (get_course_details lastResp (.error e2)).Corequisites = "") := by
  refine ⟨?_, ?_, ?_, ?_, ?_, ?_⟩
  · intro fetch url cat e h
    simp [crawl_list, h]
  · intro fetch cat l rest acc e h
    rcases h2 : l.areaCode with _ | a <;>
      simp [zoneLinks, crawl_list, h, h2]
  · intro fetch l rest acc e a ha h
    simp [runFallback, crawl_list, h, ha]
  · intro fetch details doc e h
    simp [crawl_program, h]
  · intro e1 e2
    rfl
  · intro lastResp e2
    exact ⟨rfl, rfl⟩

/-- Witness for C3 (amended): the expand-link loop aborts on `url1`. -/
theorem claim3_amended_witness :
    fetchFail "url1" = .error "ConnectionError" ∧
    zoneLinks fetchFail "required" [⟨"url1", none⟩] ([], []) =
      .error "ConnectionError" :=
  ⟨rfl,
   claim3_amended.2.1 fetchFail "required" ⟨"url1", none⟩ [] ([], [])
     "ConnectionError" rfl⟩

/-- Unfolding step of `addRows`. -/
theorem addRows_cons (acc : Acc) (x : Rec) (rest : List Rec) :
    addRows acc (x :: rest) = addRows (dedupAdd acc x) rest := rfl

/-- Membership in the merged result: any record of the output either was
already accumulated, or its key was unseen and it is the first record of
the stream bearing its key. -/
theorem mem_addRows_first (stream : List Rec) :
    ∀ (res : List Rec) (seen : List String) (r : Rec),
      r ∈ (addRows (res, seen) stream).1 →
      r ∈ res ∨ (course_id r ∉ seen ∧
        stream.find? (fun x => course_id x == course_id r) = some r) := by
  induction stream with
  | nil =>
    intro res seen r h
    exact Or.inl h
  | cons x rest ih =>
    intro res seen r h
    rw [addRows_cons] at h
    by_cases hc : course_id x ∈ seen
    · have hd : dedupAdd (res, seen) x = (res, seen) := by
        simp [dedupAdd, List.contains, hc]
      rw [hd] at h
      rcases ih res seen r h with h1 | ⟨h2, h3⟩
      · exact Or.inl h1
      · refine Or.inr ⟨h2, ?_⟩
        have hne : ¬((course_id x == course_id r) = true) := by
          intro hbe
          exact h2 (beq_iff_eq.mp hbe ▸ hc)
        rw [@List.find?_cons_of_neg _ (fun x => course_id x == course_id r)
          x rest hne]
        exact h3
    · have hd : dedupAdd (res, seen) x =
          (res ++ [x], seen ++ [course_id x]) := by
        simp [dedupAdd, List.contains, hc]
      rw [hd] at h
      rcases ih _ _ r h with h1 | ⟨h2, h3⟩
      · rcases List.mem_append.mp h1 with h4 | h4
        · exact Or.inl h4
        · have hx : r = x := by simpa using h4
          subst hx
          refine Or.inr ⟨hc, ?_⟩
          rw [List.find?_cons_of_pos _ (by simp)]
      · have h2a : course_id r ∉ seen ∧ course_id r ≠ course_id x := by
          constructor
          · intro hm
            exact h2 (List.mem_append.mpr (Or.inl hm))
          · intro heq
            exact h2 (List.mem_append.mpr (Or.inr (by simp [heq])))
        refine Or.inr ⟨h2a.1, ?_⟩
        have hne : ¬((course_id x == course_id r) = true) := by
          intro hbe
          exact h2a.2 (beq_iff_eq.mp hbe).symm
        rw [@List.find?_cons_of_neg _ (fun x => course_id x == course_id r)
          x rest hne]
        exact h3

/-- `dedupAdd` preserves the accumulator invariant. -/
theorem dedupAdd_inv (acc : Acc) (x : Rec) (h : AccInv acc) :
    AccInv (dedupAdd acc x) := by
  rcases acc with ⟨res, seen⟩
  obtain ⟨hseen, hpw⟩ := h
  dsimp only at hseen hpw
  by_cases hc : course_id x ∈ seen
  · simpa [dedupAdd, List.contains, hc] using ⟨hseen, hpw⟩
  · have : AccInv (res ++ [x], seen ++ [course_id x]) := by
      refine ⟨by simp [hseen], ?_⟩
      rw [List.pairwise_append]
      refine ⟨hpw, List.pairwise_singleton _ _, ?_⟩
      intro a ha b hb
      have hbx : b = x := by simpa using hb
      subst hbx
      intro heq
      apply hc
      rw [hseen, ← heq]
      exact List.mem_map_of_mem course_id ha
    simpa [dedupAdd, List.contains, hc] using this

/-- `addRows` preserves the accumulator invariant. -/
theorem addRows_inv (stream : List Rec) :
    ∀ acc : Acc, AccInv acc → AccInv (addRows acc stream) := by
  induction stream with
  | nil =>
    intro acc h
    exact h
  | cons x rest ih =>
    intro acc h
    rw [addRows_cons]
    exact ih _ (dedupAdd_inv acc x h)

/-- The expand-link loop preserves the accumulator invariant. -/
theorem zoneLinks_inv (fetch : FetchTable) (links : List Link) :
    ∀ (cat : String) (acc acc2 : Acc),
      zoneLinks fetch cat links acc = .ok acc2 → AccInv acc → AccInv acc2 := by
  induction links with
  | nil =>
    intro cat acc acc2 h hinv
    simp only [zoneLinks, Except.ok.injEq] at h
    exact h ▸ hinv
  | cons l rest ih =>
    intro cat acc acc2 h hinv
    simp only [zoneLinks] at h
    rcases hc : crawl_list fetch l.href
        (match l.areaCode with
         | some a => classifyLinkArea a
         | none => cat) with e | rows
    · rw [hc] at h
      cases h
    · rw [hc] at h
      exact ih _ _ _ h (addRows_inv rows _ hinv)

/-- `processZone` preserves the accumulator invariant. -/
theorem processZone_inv (fetch : FetchTable) (z : Zone) (acc acc2 : Acc)
    (h : processZone fetch z acc = .ok acc2) (hinv : AccInv acc) :
    AccInv acc2 := by
  unfold processZone at h
  rcases ht : z.table with _ | t
  · rw [ht] at h
    dsimp only at h
    exact zoneLinks_inv fetch z.links _ _ _ h hinv
  · rw [ht] at h
    dsimp only at h
    exact zoneLinks_inv fetch z.links _ _ _ h (addRows_inv _ _ hinv)

/-- The per-zone pass preserves the accumulator invariant. -/
theorem runZones_inv (fetch : FetchTable) (zs : List Zone) :
    ∀ acc acc2 : Acc,
      runZones fetch zs acc = .ok acc2 → AccInv acc → AccInv acc2 := by
  induction zs with
  | nil =>
    intro acc acc2 h hinv
    simp only [runZones, Except.ok.injEq] at h
    exact h ▸ hinv
  | cons z rest ih =>
    intro acc acc2 h hinv
    simp only [runZones] at h
    by_cases hz : isZoneAnchor z.name
    · rw [if_pos hz] at h
      rcases hp : processZone fetch z acc with e | acc1
      · rw [hp] at h
        cases h
      · rw [hp] at h
        exact ih _ _ h (processZone_inv fetch z acc acc1 hp hinv)
    · rw [if_neg hz] at h
      exact ih _ _ h hinv

/-- The fallback sweep preserves the accumulator invariant. -/
theorem runFallback_inv (fetch : FetchTable) (links : List Link) :
    ∀ acc acc2 : Acc,
      runFallback fetch links acc = .ok acc2 → AccInv acc → AccInv acc2 := by
  induction links with
  | nil =>
    intro acc acc2 h hinv
    simp only [runFallback, Except.ok.injEq] at h
    exact h ▸ hinv
  | cons l rest ih =>
    intro acc acc2 h hinv
    simp only [runFallback] at h
    rcases ha : l.areaCode with _ | a
    · rw [ha] at h
      exact ih _ _ h hinv
    · rw [ha] at h
      dsimp only at h
      rcases hc : crawl_list fetch l.href (classifyFallbackArea a)
        with e | rows
      · rw [hc] at h
        cases h
      · rw [hc] at h
        exact ih _ _ h (addRows_inv rows _ hinv)

/-- `applyDetail` never changes the identity fields. -/
theorem applyDetail_id (d : String → String → Details) (r : Rec) :
    (applyDetail d r).Major = r.Major ∧ (applyDetail d r).Code = r.Code := by
  unfold applyDetail
  split <;> simp

/-- **C4, counterexample.** The dedup key is the string concatenation
`Major ++ Code`, not the pair: in a run whose zone table yields the rows
`(CS2, 010)` and `(CS, 2010)` and whose fallback link yields `(CS, 2010)`
again, the identity `(CS, 2010)` is produced by two different tables yet
no record with that identity survives — the earlier, *different* pair
`(CS2, 010)` owns the shared key `CS2010`. -/
theorem claim4_counterexample :
    (parse_table tblCollide1 "required").countP
        (fun x => x.Major == "CS" && x.Code == "2010") = 1 ∧
    (parse_table tblCollide2 "required").countP
        (fun x => x.Major == "CS" && x.Code == "2010") = 1 ∧
    (crawl_program fetchCollide noDetails docCollide).map
        (List.filter fun x => x.Major == "CS" && x.Code == "2010") =
      .ok [] ∧
    (crawl_program fetchCollide noDetails docCollide).map
        (List.map fun x => (x.Major, x.Code)) = .ok [("CS2", "010")] :=
  ⟨rfl, rfl, rfl, rfl⟩

/-- **C4, amended.** A merged run keeps at most one record per
concatenated key `Major ++ Code` — hence at most one per `(major, code)`
pair — and every surviving record is the first record of the discovery
stream bearing its key (first writer wins, later passes never overwrite);
the final list of a successful `crawl_program` run is pairwise distinct
in `(Major, Code)`.  (Because the key is a concatenation, an identity
discovered after a *different* pair with the same concatenation leaves no
survivor, which is what the counterexample exhibits.) -/
theorem claim4_amended :
    (∀ stream : List Rec,
      (addRows ([], []) stream).1.Pairwise
        fun a b => ¬(a.Major = b.Major ∧ a.Code = b.Code)) ∧
    (∀ (stream : List Rec) (r : Rec), r ∈ (addRows ([], []) stream).1 →
      stream.find? (fun x => course_id x == course_id r) = some r) ∧
    (∀ (fetch : FetchTable) (details : String → String → Details)
        (doc : Doc) (res : List Rec),
      crawl_program fetch details doc = .ok res →
      res.Pairwise fun a b => ¬(a.Major = b.Major ∧ a.Code = b.Code)) := by
  have hkey : ∀ a b : Rec, course_id a ≠ course_id b →
      ¬(a.Major = b.Major ∧ a.Code = b.Code) := by
    intro a b hne hpair
    exact hne (by unfold course_id; rw [hpair.1, hpair.2])
  have hinv0 : AccInv ([], []) := ⟨rfl, List.Pairwise.nil⟩
  refine ⟨?_, ?_, ?_⟩
  · intro stream
    exact ((addRows_inv stream ([], []) hinv0).2).imp fun h => hkey _ _ h
  · intro stream r h
    rcases mem_addRows_first stream [] [] r h with h1 | ⟨_, h2⟩
    · cases h1
    · exact h2
  · intro fetch details doc res h
    unfold crawl_program at h
    rcases h1 : runZones fetch doc.zones ([], []) with e | acc
    · rw [h1] at h
      cases h
    · rw [h1] at h
      dsimp only at h
      rcases h2 : runFallback fetch doc.docLinks acc with e | acc2
      · rw [h2] at h
        cases h
      · rw [h2] at h
        simp only [Except.ok.injEq] at h
        subst h
        have hinv2 :=
          runFallback_inv fetch doc.docLinks acc acc2 h2
            (runZones_inv fetch doc.zones ([], []) acc h1 hinv0)
        have hmap : (detail_pass details acc2.1).Pairwise
            fun a b => course_id a ≠ course_id b := by
          unfold detail_pass
          refine List.Pairwise.map (applyDetail details) ?_ hinv2.2
          intro a b hne heq
          apply hne
          have ha := applyDetail_id details a
          have hb := applyDetail_id details b
          unfold course_id at heq ⊢
          rw [← ha.1, ← ha.2, ← hb.1, ← hb.2]
          exact heq
        exact hmap.imp fun h => hkey _ _ h

/-- Witness for C4 (amended): in the colliding run, the one survivor is
the first record of the discovery stream with key `CS2010`. -/
theorem claim4_amended_witness :
    (⟨"CS2", "010", "Name1", "6", 0, 0, "4", "", "required", "No", none⟩ :
        Rec) ∈
      (addRows ([], [])
        (parse_table tblCollide1 "required" ++
          parse_table tblCollide2 "required")).1 ∧
    (parse_table tblCollide1 "required" ++
        parse_table tblCollide2 "required").find?
      (fun x => course_id x ==
        course_id ⟨"CS2", "010", "Name1", "6", 0, 0, "4", "", "required",
          "No", none⟩) =
      some ⟨"CS2", "010", "Name1", "6", 0, 0, "4", "", "required", "No",
        none⟩ :=
  ⟨by decide,
   claim4_amended.2.1
     (parse_table tblCollide1 "required" ++ parse_table tblCollide2 "required")
     ⟨"CS2", "010", "Name1", "6", 0, 0, "4", "", "required", "No", none⟩
     (by decide)⟩

end CsDiagram
